import Mathlib

/-!
# Verification of the riverside coffee-shop collection and aggregation pipeline

Shallow embedding of the collection-and-aggregation core of the repository:

* `scripts/01_get_all_coffee_shops.py` — grid generation (`create_search_grid`),
  paginated place fetching (`fetch_places`), the deduplicating registry
  (`all_places`), and CSV output (`save_to_csv`);
* `scripts/02_master_script.py` — spatial-join aggregation, default filling and
  the Bayesian-shrinkage weighted rating (`main`);
* `scripts/03_analyze_data.py` — the threshold hotspot scorer (`main`).

Python floats are modelled as exact rationals (`ℚ`); the float value `NaN`
(which pandas produces for missing data and `0/0` and propagates through
arithmetic) is modelled as `Option ℚ` with `none` playing the role of `NaN`.
Geometry tests (shapely polygon containment used by `gpd.sjoin`) are external
library collaborators and are modelled as a characteristic function carried by
each region.
-/

set_option linter.unusedVariables false

namespace Riverside

/-- A collected place record, as built by `fetch_places` in
`01_get_all_coffee_shops.py` (one dict per element of the `results` page
array) and as read back from the CSV by `02_master_script.py`.
`rating` and `review_count` are optional in the provider response
(`place.get(...)` yields `None`, pandas reads `NaN`): modelled as `Option ℚ`.
`name` is modelled as always present (provider-stable attribute). -/
structure Place where
  place_id : String
  name : String
  address : Option String
  latitude : ℚ
  longitude : ℚ
  rating : Option ℚ
  review_count : Option ℚ
  deriving DecidableEq, Repr

/-! ## GridGenerator: `create_search_grid` of `01_get_all_coffee_shops.py`

`np.arange(start, stop, step)` over floats: produces
`start + k*step` for `k = 0 .. ⌈(stop-start)/step⌉ - 1` (empty when the
quotient is nonpositive); a zero `step` raises `ZeroDivisionError`, modelled
here as `none`. -/

/-- `np.arange` on exact rationals.  `none` models the `ZeroDivisionError`
numpy raises for a zero step. -/
def arangeQ (start stop step : ℚ) : Option (List ℚ) :=
  if step = 0 then none
  else some ((List.range (⌈(stop - start) / step⌉).toNat).map
    (fun (k : ℕ) => start + (k : ℚ) * step))

/-- The double loop `for x in x_coords: for y in y_coords:
grid_points.append(f"{y},{x}")` — points are (latitude, longitude) pairs in
x-major order. -/
def gridLoop (xs ys : List ℚ) : List (ℚ × ℚ) :=
  xs.foldr (fun x acc => ys.map (fun y => (y, x)) ++ acc) []

/-- `create_search_grid(gdf, radius_m)`: converts the radius to degrees by the
flat `111111 m / degree` ratio, spaces a lattice at `1.5 × radius_deg` over the
total bounds `[minx, maxx) × [miny, maxy)`.  `none` models the
`ZeroDivisionError` raised by `np.arange` when the spacing is zero. -/
def create_search_grid (minx miny maxx maxy radius_m : ℚ) :
    Option (List (ℚ × ℚ)) := do
  let radius_deg := radius_m / 111111
  let step := radius_deg * (3 / 2)
  let xs ← arangeQ minx maxx step
  let ys ← arangeQ miny maxy step
  pure (gridLoop xs ys)

/-- Squared Euclidean distance between two (lat, lon) pairs, in degrees. -/
def distSq (p q : ℚ × ℚ) : ℚ :=
  (p.1 - q.1) ^ 2 + (p.2 - q.2) ^ 2

example : arangeQ 0 3 (3/2) = some [0, 3/2] := by with_unfolding_all decide
example : create_search_grid 0 0 3 3 111111 =
    some [(0, 0), (3/2, 0), (0, 3/2), (3/2, 3/2)] := by with_unfolding_all decide
example : create_search_grid 0 0 1 1 0 = none := by with_unfolding_all decide
example : create_search_grid 0 0 1 1 (-5) = some [] := by with_unfolding_all decide
example : create_search_grid 1 1 0 0 (-111111) = some [(1, 1)] := by
  with_unfolding_all decide

/-! ## SpatialJoinAggregator and WeightedRatingEngine: `main` of
`02_master_script.py`

`gpd.sjoin(shops, tracts, predicate="within")` pairs each shop with the tract
polygon containing it; the polygon containment test itself is a geometry
library collaborator, modelled as the characteristic function `containsP`
carried by each region (arguments: longitude, latitude). -/

/-- A census tract as used by `02_master_script.py`: a `GEOID` key and a
boundary polygon, the latter modelled by its point-membership test. -/
structure Region where
  geoid : String
  containsP : ℚ → ℚ → Bool

/-- One row of the aggregate table produced by `main` of
`02_master_script.py` after the left merge, fill-defaulting and weighted
rating computation. -/
structure RegionAggregate where
  geoid : String
  shopCount : ℕ
  avgRating : ℚ
  totalReviews : ℚ
  weightedAvgRating : ℚ
  deriving DecidableEq, Repr

/-- The shops `sjoin` assigns to region `r` (those whose point lies within
the region's boundary polygon). -/
def matchedShops (shops : List Place) (r : Region) : List Place :=
  shops.filter (fun p => r.containsP p.longitude p.latitude)

/-- `Series.mean()` with pandas `NaN` skipping already applied by the caller
(the caller passes the list of non-missing values); on an empty series pandas
yields `NaN`, modelled as `none`. -/
def seriesMean (l : List ℚ) : Option ℚ :=
  if l.isEmpty then none else some (l.sum / (l.length : ℚ))

/-- `Series.quantile(q)` with the pandas default `linear` interpolation,
applied to the list of non-missing values: sort, take
`h = q*(n-1)`, and linearly interpolate between the values at positions
`⌊h⌋` and `⌊h⌋+1`.  `NaN` on an empty series, modelled as `none`. -/
def seriesQuantile (q : ℚ) (l : List ℚ) : Option ℚ :=
  if l.isEmpty then none
  else
    let s := l.insertionSort (· ≤ ·)
    let h := q * ((s.length : ℚ) - 1)
    let i := (⌊h⌋).toNat
    let lo := s.getD i 0
    let hi := s.getD (i + 1) lo
    some (lo + (h - (⌊h⌋ : ℚ)) * (hi - lo))

/-- The groupby aggregation of `02_master_script.py` for one region, with the
left-merge fill-defaults already applied:
`ShopCount = count('name')` (names modelled as always present, so the number
of matched shops), `AvgRating = mean('rating')` (missing ratings skipped by
pandas; `NaN` — no matched shop carries a rating, or no matched shop at
all — becomes `0` through `fillna`), `TotalReviews = sum('review_count')`
(missing review counts skipped; empty sum is `0`). -/
def aggregateRegion (shops : List Place) (r : Region) : ℕ × ℚ × ℚ :=
  let m := matchedShops shops r
  let ratings := m.filterMap Place.rating
  ( m.length
  , if ratings.isEmpty then 0 else ratings.sum / (ratings.length : ℚ)
  , (m.filterMap Place.review_count).sum )

/-- The raw float value of
`(v / (v + m)) * R + (m / (v + m)) * C` under pandas semantics, before the
final `fillna(0)`: `none` models `NaN`, which arises when `m` or `C` is `NaN`
(empty global series) or when `v + m = 0` (the `0/0` division). -/
def weightedRaw (v R : ℚ) (mOpt COpt : Option ℚ) : Option ℚ :=
  match mOpt, COpt with
  | some m, some c =>
      if v + m = 0 then none
      else some ((v / (v + m)) * R + (m / (v + m)) * c)
  | _, _ => none

/-- One output row of the master script for region `r`, given the global
mean rating `C` and 75th-percentile review count `m`. -/
def pipelineRow (m C : Option ℚ) (shops : List Place) (r : Region) :
    RegionAggregate :=
  let a := aggregateRegion shops r
  { geoid := r.geoid
    shopCount := a.1
    avgRating := a.2.1
    totalReviews := a.2.2
    weightedAvgRating := (weightedRaw a.2.2 a.2.1 m C).getD 0 }

/-- The data core of `main` in `02_master_script.py`: spatial join, groupby
aggregation, left merge with fill-defaults, and the weighted average rating
with its trailing `fillna(0)`.  `C` is the mean rating and `m` the 75th
percentile review count, both over **all** shops of the input CSV. -/
def masterPipeline (shops : List Place) (regions : List Region) :
    List RegionAggregate :=
  regions.map
    (pipelineRow (seriesQuantile (3/4) (shops.filterMap Place.review_count))
      (seriesMean (shops.filterMap Place.rating)) shops)

/-- A shop used by the concrete counterexamples: one rated shop with 10
reviews at the origin. -/
def exShop : Place :=
  { place_id := "p1", name := "Shop One", address := some "1 Main St"
    latitude := 0, longitude := 0, rating := some 4, review_count := some 10 }

/-- The same place as `exShop` re-observed later with a fresher rating. -/
def exShopRerated : Place :=
  { place_id := "p1", name := "Shop One", address := some "1 Main St"
    latitude := 0, longitude := 0, rating := some 5, review_count := some 12 }

/-- A shop observed with neither a rating nor a review count (the provider
omits both fields; pandas reads `NaN`). -/
def exShopNoData : Place :=
  { place_id := "p2", name := "Shop Two", address := none
    latitude := 0, longitude := 0, rating := none, review_count := none }

/-- Region containing every point (the counterexample shop falls in it). -/
def exRegionA : Region := { geoid := "A", containsP := fun _ _ => true }

/-- Region containing no point (zero matched shops). -/
def exRegionB : Region := { geoid := "B", containsP := fun _ _ => false }

example : seriesQuantile (3/4) [10] = some 10 := by with_unfolding_all decide
example : seriesQuantile (3/4) [10, 5] = some (35/4) := by
  with_unfolding_all decide
example : masterPipeline [exShop] [exRegionA, exRegionB] =
    [ { geoid := "A", shopCount := 1, avgRating := 4, totalReviews := 10
        weightedAvgRating := (10/20) * 4 + (10/20) * 4 }
    , { geoid := "B", shopCount := 0, avgRating := 0, totalReviews := 0
        weightedAvgRating := 4 } ] := by with_unfolding_all decide

/-! ## PlaceCollector: `fetch_places` and the `all_places` registry of
`01_get_all_coffee_shops.py`

A page of the nearby-search response: the `results` array (each element
already plucked into a `Place` record by the loop body of `fetch_places`)
and the optional `next_page_token`.  The response stream of one grid point is
modelled as a function from the request index to either a transport/status
error (anything `requests.get` / `raise_for_status` / `.json()` raises that
the `except` clause catches) or a parsed page. -/

structure Page where
  results : List Place
  next_page_token : Option String

/-- The `while url and page_count < 3` loop of `fetch_places`.  `fuel` is
`3 - page_count`; `pc` is the index of the next request; `acc` is the
`results` list accumulated so far; `n` counts the HTTP page requests issued.
A transport error breaks out of the loop keeping `acc`; a missing
continuation token clears `url`, ending the loop after the current page. -/
def fetchGo (s : ℕ → Except String Page) :
    ℕ → ℕ → List Place → ℕ → List Place × ℕ
  | 0, _, acc, n => (acc, n)
  | fuel + 1, pc, acc, n =>
    match s pc with
    | .error _ => (acc, n + 1)
    | .ok page =>
      match page.next_page_token with
      | some _ => fetchGo s fuel (pc + 1) (acc ++ page.results) (n + 1)
      | none => (acc ++ page.results, n + 1)

/-- `fetch_places` for one grid point: returns the collected places and the
number of page requests issued. -/
def fetch_places (s : ℕ → Except String Page) : List Place × ℕ :=
  fetchGo s 3 0 [] 0

/-- `all_places[place['place_id']] = place`: insert-or-overwrite into the
registry, modelled as an insertion-ordered association list (Python dicts
keep the first-insertion position of a key and overwrite its value). -/
def insertPlace : List (String × Place) → Place → List (String × Place)
  | [], p => [(p.place_id, p)]
  | (k, q) :: rest, p =>
    if k = p.place_id then (k, p) :: rest else (k, q) :: insertPlace rest p

/-- The inner `for place in places_found` loop: merge one point's results
into the registry in order. -/
def mergePlaces (reg : List (String × Place)) (ps : List Place) :
    List (String × Place) :=
  ps.foldl insertPlace reg

/-- The registry built from a flat sequence of place observations. -/
def buildRegistry (ps : List Place) : List (String × Place) :=
  mergePlaces [] ps

/-- The grid loop of `__main__`: starting from the empty `all_places` dict,
merge the `places_found` of every grid point in order. -/
def registryOfRuns (pointResults : List (List Place)) :
    List (String × Place) :=
  pointResults.foldl mergePlaces []

/-- The whole collection run: each grid point contributes the (error-truncated)
pages drained by `fetch_places` from its own response stream. -/
def collectRun (streams : List (ℕ → Except String Page)) :
    List (String × Place) :=
  streams.foldl (fun reg s => mergePlaces reg (fetch_places s).1) []

/-- Dict lookup in the registry. -/
def findPlace : List (String × Place) → String → Option Place
  | [], _ => none
  | (k, q) :: rest, i => if k = i then some q else findPlace rest i

/-- Number of registry entries stored under key `i`. -/
def countKey (reg : List (String × Place)) (i : String) : ℕ :=
  (reg.filter (fun e => e.1 = i)).length

/-- A response page carrying a continuation token. -/
def exPageTokened : Page :=
  { results := [exShop], next_page_token := some "tok" }

/-- A final response page without a continuation token. -/
def exPagePlain : Page :=
  { results := [exShopNoData], next_page_token := none }

/-- A grid point whose first page succeeds (with a token) and whose second
page request fails. -/
def exStreamFail : ℕ → Except String Page :=
  fun k => if k = 0 then .ok exPageTokened else .error "boom"

/-- A grid point whose single page succeeds with no continuation token. -/
def exStreamGood : ℕ → Except String Page :=
  fun _ => .ok exPagePlain

/-! ## `save_to_csv` of `01_get_all_coffee_shops.py`

The filesystem is modelled as a map from filename to file content; a written
CSV is its header (`data[0].keys()`, the fixed field set built by
`fetch_places`) together with one row per record.  Field-level string
rendering is the `csv` module's, an external collaborator, so rows are kept
as the records themselves. -/

/-- The dict keys of every record built by `fetch_places`, in insertion
order: the CSV header. -/
def place_fieldnames : List String :=
  ["place_id", "name", "address", "latitude", "longitude", "rating",
   "review_count"]

/-- `save_to_csv(data, filename)`: with no data it prints and returns without
touching any file; otherwise it opens `filename` for writing and writes the
header and all rows. -/
def save_to_csv (data : List Place) (filename : String)
    (fs : String → Option (List String × List Place)) :
    String → Option (List String × List Place) :=
  if data.isEmpty then fs
  else fun f => if f = filename then some (place_fieldnames, data) else fs f

/-! ## HotspotScorer: `main` of `03_analyze_data.py`

One row of `final_processed_data.geojson` restricted to the columns the
hotspot filter reads.  `TotalPopulation` and `MedianHouseholdIncome` come
from the census merge and can be missing (`NaN`, modelled `none`);
`ShopCount` is always filled by the master script. -/

structure ScoredRegion where
  geoid : String
  totalPopulation : Option ℚ
  medianHouseholdIncome : Option ℚ
  shopCount : ℚ
  deriving DecidableEq, Repr

/-- A pandas `>=` comparison between a cell and a threshold: `False` whenever
either side is `NaN`. -/
def seriesGe (x t : Option ℚ) : Bool :=
  match x, t with
  | some a, some b => decide (b ≤ a)
  | _, _ => false

/-- The hotspot filter of `03_analyze_data.py`: recompute both 75th
percentiles over the supplied frame (pandas `quantile` skips `NaN` cells),
then keep the rows with `TotalPopulation >= pop_threshold`,
`MedianHouseholdIncome >= income_threshold` and `ShopCount == 0`. -/
def find_hotspots (gdf : List ScoredRegion) : List ScoredRegion :=
  let popT := seriesQuantile (3/4) (gdf.filterMap (·.totalPopulation))
  let incT := seriesQuantile (3/4) (gdf.filterMap (·.medianHouseholdIncome))
  gdf.filter (fun r =>
    seriesGe r.totalPopulation popT &&
    seriesGe r.medianHouseholdIncome incT &&
    decide (r.shopCount = 0))

/-! ## Helper lemmas -/

/-- The aggregate row built for the `i`-th region. -/
lemma masterPipeline_getElem (shops : List Place) (rs : List Region) (i : ℕ)
    (hi : i < (masterPipeline shops rs).length) :
    (masterPipeline shops rs).get ⟨i, hi⟩ =
      pipelineRow (seriesQuantile (3/4) (shops.filterMap Place.review_count))
        (seriesMean (shops.filterMap Place.rating)) shops
        (rs.get ⟨i, by simpa [masterPipeline] using hi⟩) := by
  simp only [masterPipeline, List.get_eq_getElem, List.getElem_map]

/-- A region with no matched shops produces the default-filled row: zero
count, zero average rating, zero total reviews, and a weighted rating that is
the `fillna(0)` image of `weightedRaw 0 0 m C`. -/
lemma pipelineRow_of_no_match {m C : Option ℚ} {shops : List Place}
    {r : Region} (h : matchedShops shops r = []) :
    pipelineRow m C shops r =
      { geoid := r.geoid, shopCount := 0, avgRating := 0, totalReviews := 0
        weightedAvgRating := (weightedRaw 0 0 m C).getD 0 } := by
  simp [pipelineRow, aggregateRegion, h]

lemma length_masterPipeline (shops : List Place) (rs : List Region) :
    (masterPipeline shops rs).length = rs.length := by
  simp [masterPipeline]

/-- A region with no matched shops aggregates to zero count, zero rating sum
contribution and zero reviews. -/
lemma aggregateRegion_of_no_match {shops : List Place} {r : Region}
    (h : matchedShops shops r = []) :
    aggregateRegion shops r = (0, 0, 0) := by
  simp [aggregateRegion, h]

/-- The fuel-indexed pagination loop issues at most `fuel` further requests. -/
lemma fetchGo_requests_le (s : ℕ → Except String Page) (fuel : ℕ) :
    ∀ (pc : ℕ) (acc : List Place) (n : ℕ),
      (fetchGo s fuel pc acc n).2 ≤ n + fuel := by
  induction fuel with
  | zero => intro pc acc n; simp [fetchGo]
  | succ fuel ih =>
    intro pc acc n
    rw [fetchGo]
    split
    · simp
    · split
      · exact le_trans (ih (pc + 1) (acc ++ _) (n + 1)) (by omega)
      · simp

/-! ## Claims -/

/-- **C7**: for every stream of paginated responses — even one that always
carries a continuation token — `fetch_places` issues at most 3 page requests
for its grid point (and, being a total function, terminates). -/
theorem fetch_places_at_most_three_pages (s : ℕ → Except String Page) :
    (fetch_places s).2 ≤ 3 :=
  fetchGo_requests_le s 3 0 [] 0

/-- **C1 counterexample**: with one rated shop (rating 4, 10 reviews) in
region `A` and no shop in region `B`, the zero-shop region `B` receives
`weighted_avg_rating = C = 4`, not `0`: the `fillna(0)` only replaces `NaN`,
and for `v = 0, m = 10` the formula evaluates to the global mean. -/
theorem zero_shop_weighted_rating_counterexample :
    ((masterPipeline [exShop] [exRegionA, exRegionB]).getD 1
        ⟨"", 0, 0, 0, 0⟩).shopCount = 0 ∧
    ((masterPipeline [exShop] [exRegionA, exRegionB]).getD 1
        ⟨"", 0, 0, 0, 0⟩).weightedAvgRating = 4 ∧
    ((masterPipeline [exShop] [exRegionA, exRegionB]).getD 1
        ⟨"", 0, 0, 0, 0⟩).weightedAvgRating ≠ 0 := by
  with_unfolding_all decide

/-- **C1 amended**: a region with zero matched shops has `v = 0` and `R = 0`,
so its `weighted_avg_rating` is the global mean rating `C` whenever the
75th-percentile review count `m` and `C` are defined with `m ≠ 0`; it is `0`
exactly in the `NaN`-fill cases (`m` or `C` undefined, or `v + m = 0`). -/
theorem zero_shop_weighted_rating (shops : List Place) (rs : List Region)
    (i : ℕ) (hi : i < (masterPipeline shops rs).length)
    (h0 : ((masterPipeline shops rs).get ⟨i, hi⟩).shopCount = 0) :
    ((masterPipeline shops rs).get ⟨i, hi⟩).weightedAvgRating =
      match seriesQuantile (3/4) (shops.filterMap Place.review_count),
          seriesMean (shops.filterMap Place.rating) with
      | some m, some c => if m = 0 then 0 else c
      | _, _ => 0 := by
  rw [masterPipeline_getElem] at h0 ⊢
  set r := rs.get ⟨i, by simpa [masterPipeline] using hi⟩ with hr
  have hmatch : matchedShops shops r = [] :=
    List.length_eq_zero.mp
      (by simpa [pipelineRow, aggregateRegion] using h0)
  rw [pipelineRow_of_no_match hmatch]
  cases hq : seriesQuantile (3/4) (shops.filterMap Place.review_count) with
  | none => simp [weightedRaw]
  | some m =>
    cases hc : seriesMean (shops.filterMap Place.rating) with
    | none => simp [weightedRaw]
    | some c =>
      by_cases hm : m = 0
      · simp [weightedRaw, hm]
      · simp [weightedRaw, hm, div_self hm]

/-- **C1 amended, witness**: in the concrete two-region scenario the second
region has zero shops, and the theorem evaluates its weighted rating to the
global mean 4. -/
theorem zero_shop_weighted_rating_witness :
    ((masterPipeline [exShop] [exRegionA, exRegionB]).get
        ⟨1, by with_unfolding_all decide⟩).shopCount = 0 ∧
    ((masterPipeline [exShop] [exRegionA, exRegionB]).get
        ⟨1, by with_unfolding_all decide⟩).weightedAvgRating =
      match seriesQuantile (3/4) ([exShop].filterMap Place.review_count),
          seriesMean ([exShop].filterMap Place.rating) with
      | some m, some c => if m = 0 then 0 else c
      | _, _ => 0 :=
  ⟨by with_unfolding_all decide,
   zero_shop_weighted_rating [exShop] [exRegionA, exRegionB] 1 _
     (by with_unfolding_all decide)⟩

/-- **C2 counterexample**: one region containing one shop that carries
neither rating nor review count.  After fill-defaulting the region has
`avg_rating = 0` and `total_reviews = 0` (the all-`NaN` mean is filled to 0,
the empty sum is 0) yet `shop_count = 1`, refuting the right-to-left
direction of the claimed equivalence. -/
theorem shop_count_iff_counterexample :
    ((masterPipeline [exShopNoData] [exRegionA]).getD 0
        ⟨"", 0, 0, 0, 0⟩).avgRating = 0 ∧
    ((masterPipeline [exShopNoData] [exRegionA]).getD 0
        ⟨"", 0, 0, 0, 0⟩).totalReviews = 0 ∧
    ((masterPipeline [exShopNoData] [exRegionA]).getD 0
        ⟨"", 0, 0, 0, 0⟩).shopCount ≠ 0 := by
  with_unfolding_all decide

/-- **C2 amended**: only the left-to-right direction holds: a region with
`shop_count = 0` has `avg_rating = 0` and `total_reviews = 0` after
fill-defaulting.  The converse fails when every matched shop lacks both its
rating and its review count. -/
theorem shop_count_zero_forces_zero_stats (shops : List Place)
    (rs : List Region) (i : ℕ)
    (hi : i < (masterPipeline shops rs).length)
    (h0 : ((masterPipeline shops rs).get ⟨i, hi⟩).shopCount = 0) :
    ((masterPipeline shops rs).get ⟨i, hi⟩).avgRating = 0 ∧
    ((masterPipeline shops rs).get ⟨i, hi⟩).totalReviews = 0 := by
  rw [masterPipeline_getElem] at h0 ⊢
  set r := rs.get ⟨i, by simpa [masterPipeline] using hi⟩ with hr
  have hmatch : matchedShops shops r = [] :=
    List.length_eq_zero.mp
      (by simpa [pipelineRow, aggregateRegion] using h0)
  rw [pipelineRow_of_no_match hmatch]
  exact ⟨rfl, rfl⟩

/-- **C2 amended, witness**: the concrete zero-shop region `B` has zero
average rating and zero total reviews. -/
theorem shop_count_zero_forces_zero_stats_witness :
    ((masterPipeline [exShop] [exRegionA, exRegionB]).get
        ⟨1, by with_unfolding_all decide⟩).shopCount = 0 ∧
    (((masterPipeline [exShop] [exRegionA, exRegionB]).get
        ⟨1, by with_unfolding_all decide⟩).avgRating = 0 ∧
     ((masterPipeline [exShop] [exRegionA, exRegionB]).get
        ⟨1, by with_unfolding_all decide⟩).totalReviews = 0) :=
  ⟨by with_unfolding_all decide,
   shop_count_zero_forces_zero_stats [exShop] [exRegionA, exRegionB] 1 _
     (by with_unfolding_all decide)⟩

/-- **C5**: the aggregate output has exactly one record per input region in
the input order (left-join semantics: no region dropped, none duplicated),
and a region matching zero places receives the explicit defaults
`shop_count = 0`, `avg_rating = 0`, `total_reviews = 0` rather than missing
values. -/
theorem one_aggregate_per_region (shops : List Place) (rs : List Region)
    (i : ℕ) (hi : i < rs.length) :
    (masterPipeline shops rs).length = rs.length ∧
    ((masterPipeline shops rs).getD i ⟨"", 0, 0, 0, 0⟩).geoid =
      (rs.getD i ⟨"", fun _ _ => false⟩).geoid ∧
    (matchedShops shops (rs.getD i ⟨"", fun _ _ => false⟩) = [] →
      ((masterPipeline shops rs).getD i ⟨"", 0, 0, 0, 0⟩).shopCount = 0 ∧
      ((masterPipeline shops rs).getD i ⟨"", 0, 0, 0, 0⟩).avgRating = 0 ∧
      ((masterPipeline shops rs).getD i ⟨"", 0, 0, 0, 0⟩).totalReviews = 0) := by
  have hget : (masterPipeline shops rs).getD i ⟨"", 0, 0, 0, 0⟩ =
      pipelineRow (seriesQuantile (3/4) (shops.filterMap Place.review_count))
        (seriesMean (shops.filterMap Place.rating)) shops
        (rs.getD i ⟨"", fun _ _ => false⟩) := by
    rw [List.getD_eq_getElem?_getD, List.getD_eq_getElem?_getD,
      masterPipeline, List.getElem?_map, List.getElem?_eq_getElem hi]
    rfl
  refine ⟨by simp [masterPipeline], ?_, ?_⟩
  · rw [hget]; rfl
  · intro hmatch
    rw [hget, pipelineRow_of_no_match hmatch]
    exact ⟨rfl, rfl, rfl⟩

/-- **C5, witness**: in the two-region scenario, region `B` (index 1) exists
in the output with geoid `B` and the three zero defaults. -/
theorem one_aggregate_per_region_witness :
    (1 < 2) ∧
    ((masterPipeline [exShop] [exRegionA, exRegionB]).length = 2 ∧
     ((masterPipeline [exShop] [exRegionA, exRegionB]).getD 1
        ⟨"", 0, 0, 0, 0⟩).geoid =
       (([exRegionA, exRegionB]).getD 1 ⟨"", fun _ _ => false⟩).geoid ∧
     (matchedShops [exShop]
        (([exRegionA, exRegionB]).getD 1 ⟨"", fun _ _ => false⟩) = [] →
       ((masterPipeline [exShop] [exRegionA, exRegionB]).getD 1
          ⟨"", 0, 0, 0, 0⟩).shopCount = 0 ∧
       ((masterPipeline [exShop] [exRegionA, exRegionB]).getD 1
          ⟨"", 0, 0, 0, 0⟩).avgRating = 0 ∧
       ((masterPipeline [exShop] [exRegionA, exRegionB]).getD 1
          ⟨"", 0, 0, 0, 0⟩).totalReviews = 0)) :=
  ⟨by decide,
   one_aggregate_per_region [exShop] [exRegionA, exRegionB] 1 (by decide)⟩

/-- `seriesGe` succeeds exactly when both the cell and the threshold are
non-missing and the cell reaches the threshold. -/
lemma seriesGe_eq_true {x t : Option ℚ} :
    seriesGe x t = true ↔ ∃ a b, x = some a ∧ t = some b ∧ b ≤ a := by
  cases x with
  | none => simp [seriesGe]
  | some a =>
    cases t with
    | none => simp [seriesGe]
    | some b => simp [seriesGe]

/-- **C9**: the hotspot scorer returns exactly the supplied regions whose
population and median income reach the 75th percentiles — both recomputed
from the frame passed to this invocation — and whose shop count is zero. -/
theorem hotspot_filter_membership (gdf : List ScoredRegion)
    (r : ScoredRegion) :
    r ∈ find_hotspots gdf ↔
      r ∈ gdf ∧
      (∃ p t, r.totalPopulation = some p ∧
        seriesQuantile (3/4) (gdf.filterMap (·.totalPopulation)) = some t ∧
        t ≤ p) ∧
      (∃ inc t, r.medianHouseholdIncome = some inc ∧
        seriesQuantile (3/4) (gdf.filterMap (·.medianHouseholdIncome)) =
          some t ∧ t ≤ inc) ∧
      r.shopCount = 0 := by
  simp only [find_hotspots, List.mem_filter, Bool.and_eq_true,
    decide_eq_true_eq, seriesGe_eq_true, and_assoc]

/-- **C10**: `save_to_csv` leaves every file untouched when the record list
is empty, and otherwise writes exactly the named file with the header and
one row per record; every other path is untouched.  Hence an output CSV
exists at the target path if and only if at least one record was supplied. -/
theorem save_to_csv_frame (data : List Place) (filename g : String)
    (fs : String → Option (List String × List Place)) :
    save_to_csv data filename fs g =
      if data ≠ [] ∧ g = filename then some (place_fieldnames, data)
      else fs g := by
  cases data with
  | nil => simp [save_to_csv]
  | cons p ps =>
    by_cases hg : g = filename <;> simp [save_to_csv, hg]

/-! ## Registry lemmas for the dedup invariant -/

lemma countKey_cons (k : String) (q : Place) (reg : List (String × Place))
    (i : String) :
    countKey ((k, q) :: reg) i =
      (if k = i then 1 else 0) + countKey reg i := by
  by_cases h : k = i <;> simp [countKey, List.filter_cons, h, Nat.add_comm]

lemma findPlace_insertPlace (reg : List (String × Place)) (p : Place)
    (i : String) :
    findPlace (insertPlace reg p) i =
      if p.place_id = i then some p else findPlace reg i := by
  induction reg with
  | nil => simp [insertPlace, findPlace]
  | cons e rest ih =>
    obtain ⟨k, q⟩ := e
    by_cases hk : k = p.place_id
    · subst hk
      by_cases hpi : p.place_id = i <;> simp [insertPlace, findPlace, hpi]
    · by_cases hki : k = i
      · subst hki
        have hpi : p.place_id ≠ k := fun h => hk h.symm
        simp [insertPlace, findPlace, hk, hpi]
      · simp [insertPlace, findPlace, hk, hki, ih]

lemma mem_keys_insertPlace (reg : List (String × Place)) (p : Place)
    (i : String) :
    i ∈ (insertPlace reg p).map Prod.fst ↔
      i = p.place_id ∨ i ∈ reg.map Prod.fst := by
  induction reg with
  | nil => simp [insertPlace]
  | cons e rest ih =>
    obtain ⟨k, q⟩ := e
    by_cases hk : k = p.place_id
    · subst hk
      by_cases hki : i = p.place_id <;> simp [insertPlace, hki]
    · simp only [insertPlace, if_neg hk, List.map_cons, List.mem_cons, ih]
      tauto

lemma length_insertPlace (reg : List (String × Place)) (p : Place) :
    (insertPlace reg p).length =
      if p.place_id ∈ reg.map Prod.fst then reg.length
      else reg.length + 1 := by
  induction reg with
  | nil => simp [insertPlace]
  | cons e rest ih =>
    obtain ⟨k, q⟩ := e
    by_cases hk : k = p.place_id
    · subst hk
      simp [insertPlace]
    · have hk2 : p.place_id ≠ k := fun h => hk h.symm
      simp only [insertPlace, if_neg hk, List.length_cons, List.map_cons,
        List.mem_cons, ih, hk2, false_or]
      split <;> rfl

lemma countKey_insertPlace (reg : List (String × Place)) (p : Place)
    (i : String) :
    countKey (insertPlace reg p) i =
      if p.place_id ∈ reg.map Prod.fst then countKey reg i
      else countKey reg i + (if p.place_id = i then 1 else 0) := by
  induction reg with
  | nil =>
    by_cases hpi : p.place_id = i <;>
      simp [insertPlace, countKey, List.filter_cons, hpi]
  | cons e rest ih =>
    obtain ⟨k, q⟩ := e
    by_cases hk : k = p.place_id
    · subst hk
      simp only [insertPlace, if_pos rfl, countKey_cons, List.map_cons,
        List.mem_cons, true_or, if_pos]
    · have hk2 : p.place_id ≠ k := fun h => hk h.symm
      simp only [insertPlace, if_neg hk, countKey_cons, List.map_cons,
        List.mem_cons, hk2, false_or, ih]
      by_cases hmem : p.place_id ∈ rest.map Prod.fst
      · simp [hmem]
      · simp [hmem]; omega

/-- The registry invariant: each key occurs at most once, in fact exactly
once iff it is a key at all. -/
def KeyInv (reg : List (String × Place)) : Prop :=
  ∀ j, countKey reg j = if j ∈ reg.map Prod.fst then 1 else 0

lemma keyInv_nil : KeyInv [] := by intro j; simp [countKey]

lemma keyInv_insertPlace {reg : List (String × Place)} (h : KeyInv reg)
    (p : Place) : KeyInv (insertPlace reg p) := by
  intro j
  rw [countKey_insertPlace, h j]
  by_cases hmem : p.place_id ∈ reg.map Prod.fst
  · simp only [if_pos hmem, mem_keys_insertPlace]
    by_cases hj : j = p.place_id
    · subst hj; simp [hmem]
    · simp only [or_iff_right hj]
  · simp only [if_neg hmem, mem_keys_insertPlace]
    by_cases hj : j = p.place_id
    · subst hj; simp [hmem]
    · have hj2 : p.place_id ≠ j := fun h2 => hj h2.symm
      simp only [if_neg hj2, Nat.add_zero, or_iff_right hj]

lemma keyInv_foldl (ps : List Place) :
    ∀ reg, KeyInv reg → KeyInv (ps.foldl insertPlace reg) := by
  induction ps with
  | nil => intro reg h; exact h
  | cons p tl ih => intro reg h; exact ih _ (keyInv_insertPlace h p)

lemma mem_keys_foldl (ps : List Place) :
    ∀ (reg : List (String × Place)) (i : String),
      i ∈ (ps.foldl insertPlace reg).map Prod.fst ↔
        i ∈ reg.map Prod.fst ∨ i ∈ ps.map Place.place_id := by
  induction ps with
  | nil => intro reg i; simp
  | cons p tl ih =>
    intro reg i
    simp only [List.foldl_cons, ih, mem_keys_insertPlace, List.map_cons,
      List.mem_cons]
    tauto

/-- The per-point merging of the grid loop equals merging the flattened
observation sequence. -/
lemma registryOfRuns_eq_buildRegistry (runs : List (List Place)) :
    registryOfRuns runs = buildRegistry runs.flatten := by
  suffices h : ∀ (runs : List (List Place)) (reg : List (String × Place)),
      runs.foldl mergePlaces reg = runs.flatten.foldl insertPlace reg by
    simpa [registryOfRuns, buildRegistry, mergePlaces] using h runs []
  intro runs
  induction runs with
  | nil => intro reg; rfl
  | cons l ls ih =>
    intro reg
    simp [List.foldl_append, ih, mergePlaces]

lemma findPlace_buildRegistry (ps : List Place) (i : String) :
    findPlace (buildRegistry ps) i =
      (ps.filter (fun q => q.place_id = i)).getLast? := by
  induction ps using List.reverseRecOn with
  | nil => rfl
  | append_singleton ps p ih =>
    have hb : buildRegistry (ps ++ [p]) =
        insertPlace (buildRegistry ps) p := by
      simp [buildRegistry, mergePlaces, List.foldl_append]
    rw [hb, findPlace_insertPlace, List.filter_append]
    by_cases hp : p.place_id = i
    · simp [hp]
    · simp [hp, ih]

lemma countKey_buildRegistry (ps : List Place) (i : String) :
    countKey (buildRegistry ps) i =
      if i ∈ ps.map Place.place_id then 1 else 0 := by
  have h1 := keyInv_foldl ps [] keyInv_nil i
  have h2 := mem_keys_foldl ps [] i
  simp only [List.map_nil, List.not_mem_nil, false_or] at h2
  rw [buildRegistry, mergePlaces] at *
  rw [h1]
  simp [h2]

/-- **C6**: across any sequence of grid-point result lists, the final
registry holds exactly one entry per distinct observed `place_id` (and none
for unobserved ids), the stored record is the last observation of that id
(last-write-wins), and re-observing an already-registered id leaves the
registry size unchanged. -/
theorem registry_dedup (runs : List (List Place)) (p : Place) (i : String) :
    countKey (registryOfRuns runs) i =
      (if i ∈ runs.flatten.map Place.place_id then 1 else 0) ∧
    findPlace (registryOfRuns runs) i =
      (runs.flatten.filter (fun q => q.place_id = i)).getLast? ∧
    (p.place_id ∈ runs.flatten.map Place.place_id →
      (registryOfRuns (runs ++ [[p]])).length =
        (registryOfRuns runs).length) := by
  refine ⟨?_, ?_, ?_⟩
  · rw [registryOfRuns_eq_buildRegistry, countKey_buildRegistry]
  · rw [registryOfRuns_eq_buildRegistry, findPlace_buildRegistry]
  · intro hmem
    have hrw : registryOfRuns (runs ++ [[p]]) =
        insertPlace (registryOfRuns runs) p := by
      simp [registryOfRuns, List.foldl_append, mergePlaces]
    have hkeys : p.place_id ∈ (registryOfRuns runs).map Prod.fst := by
      rw [registryOfRuns_eq_buildRegistry]
      have := mem_keys_foldl runs.flatten [] p.place_id
      simp only [List.map_nil, List.not_mem_nil, false_or] at this
      rw [buildRegistry, mergePlaces]
      exact this.mpr hmem
    rw [hrw, length_insertPlace, if_pos hkeys]

/-- **C6, witness**: observing the same place (same id, updated rating)
through two overlapping grid points leaves one entry, stores the last
observation, and keeps the registry size at one. -/
theorem registry_dedup_witness :
    (countKey (registryOfRuns [[exShop], [exShopRerated]]) "p1" =
      (if "p1" ∈ ([[exShop], [exShopRerated]] : List (List Place)).flatten.map
          Place.place_id then 1 else 0) ∧
     findPlace (registryOfRuns [[exShop], [exShopRerated]]) "p1" =
      (([[exShop], [exShopRerated]] : List (List Place)).flatten.filter
        (fun q => q.place_id = "p1")).getLast? ∧
     (exShop.place_id ∈
        ([[exShop], [exShopRerated]] : List (List Place)).flatten.map
          Place.place_id →
      (registryOfRuns ([[exShop], [exShopRerated]] ++ [[exShop]])).length =
        (registryOfRuns [[exShop], [exShopRerated]]).length)) ∧
    exShop.place_id ∈
      ([[exShop], [exShopRerated]] : List (List Place)).flatten.map
        Place.place_id :=
  ⟨registry_dedup [[exShop], [exShopRerated]] exShop "p1", by decide⟩

/-- **C8**: a failing page request abandons pagination for its own grid
point only.  If the `j`-th request of point `s` fails after `j` successful
tokened pages, `fetch_places` returns exactly the places of those `j` pages
(everything already merged is preserved), and the whole run keeps processing:
the final registry is obtained by merging that point's partial results into
the registry of the preceding points and then continuing with the remaining
points — the run is never aborted. -/
theorem per_point_failure_isolated
    (ss₁ ss₂ : List (ℕ → Except String Page))
    (s : ℕ → Except String Page) (j : ℕ) (pages : ℕ → Page)
    (hj : j < 3) (herr : ∃ msg, s j = Except.error msg)
    (hok : ∀ k, k < j → s k = Except.ok (pages k) ∧
      ((pages k).next_page_token).isSome = true) :
    (fetch_places s).1 =
      (List.range j).foldr (fun k acc => (pages k).results ++ acc) [] ∧
    collectRun (ss₁ ++ s :: ss₂) =
      ss₂.foldl (fun reg st => mergePlaces reg (fetch_places st).1)
        (mergePlaces (collectRun ss₁)
          ((List.range j).foldr (fun k acc => (pages k).results ++ acc)
            [])) := by
  obtain ⟨msg, hmsg⟩ := herr
  have hpart1 : (fetch_places s).1 =
      (List.range j).foldr (fun k acc => (pages k).results ++ acc) [] := by
    interval_cases j
    · simp [fetch_places, fetchGo, hmsg]
    · obtain ⟨h0, ht0⟩ := hok 0 (by omega)
      obtain ⟨t0, ht0e⟩ := Option.isSome_iff_exists.mp ht0
      simp [fetch_places, fetchGo, h0, ht0e, hmsg, List.range_succ, List.range_zero]
    · obtain ⟨h0, ht0⟩ := hok 0 (by omega)
      obtain ⟨t0, ht0e⟩ := Option.isSome_iff_exists.mp ht0
      obtain ⟨h1, ht1⟩ := hok 1 (by omega)
      obtain ⟨t1, ht1e⟩ := Option.isSome_iff_exists.mp ht1
      simp [fetch_places, fetchGo, h0, ht0e, h1, ht1e, hmsg, List.range_succ,
        List.range_zero]
  refine ⟨hpart1, ?_⟩
  rw [collectRun, List.foldl_append, List.foldl_cons, hpart1]
  rfl

/-- **C8, witness**: a concrete run of two grid points in which the first
point's second page request fails: the first page's place is kept, and the
second point is still processed into the registry. -/
theorem per_point_failure_isolated_witness :
    (1 < 3) ∧
    (∃ msg, exStreamFail 1 = Except.error msg) ∧
    (∀ k, k < 1 → exStreamFail k = Except.ok exPageTokened ∧
      (exPageTokened.next_page_token).isSome = true) ∧
    ((fetch_places exStreamFail).1 =
      (List.range 1).foldr
        (fun k acc => ((fun _ => exPageTokened) k).results ++ acc) [] ∧
     collectRun ([] ++ exStreamFail :: [exStreamGood]) =
      [exStreamGood].foldl (fun reg st => mergePlaces reg (fetch_places st).1)
        (mergePlaces (collectRun [])
          ((List.range 1).foldr
            (fun k acc => ((fun _ => exPageTokened) k).results ++ acc)
            []))) :=
  ⟨by decide, ⟨"boom", rfl⟩,
   fun k hk => by interval_cases k; exact ⟨rfl, rfl⟩,
   per_point_failure_isolated [] [exStreamGood] exStreamFail 1
     (fun _ => exPageTokened) (by decide) ⟨"boom", rfl⟩
     (fun k hk => by interval_cases k; exact ⟨rfl, rfl⟩)⟩

/-- `np.arange` yields the empty array when the requested length is
nonpositive (and the step is nonzero). -/
lemma arangeQ_eq_nil (start stop step : ℚ) (hstep : step ≠ 0)
    (h : (stop - start) / step ≤ 0) :
    arangeQ start stop step = some [] := by
  have hceil : ⌈(stop - start) / step⌉ ≤ 0 := Int.ceil_le.mpr (by
    exact_mod_cast h)
  have htn : (⌈(stop - start) / step⌉).toNat = 0 := by omega
  simp [arangeQ, hstep, htn]

/-- The x-major double loop over an empty inner list is empty. -/
lemma gridLoop_nil_right (xs : List ℚ) : gridLoop xs [] = [] := by
  induction xs with
  | nil => rfl
  | cons x tl ih => simp [gridLoop]

/-- **C4 counterexample**: for `radiusMeters = 0` the spacing passed to
`np.arange` is zero, and numpy raises `ZeroDivisionError` (modelled `none`):
the function fails instead of returning an empty sequence. -/
theorem zero_radius_grid_counterexample :
    create_search_grid 0 0 1 1 0 = none := by
  with_unfolding_all decide

/-- **C4 amended**: grid generation returns the empty sequence without
failing for every strictly negative radius (provided at least one axis of
the bounds is non-degenerate) and for every degenerate `minLon ≥ maxLon`
with a strictly positive radius; but a zero radius always raises
(`np.arange` with zero step), and a negative radius with both axes
degenerate can even return a nonempty grid. -/
theorem degenerate_inputs_grid (minx miny maxx maxy r : ℚ) :
    (r < 0 → (minx < maxx ∨ miny < maxy) →
      create_search_grid minx miny maxx maxy r = some []) ∧
    (0 < r → maxx ≤ minx →
      create_search_grid minx miny maxx maxy r = some []) ∧
    create_search_grid minx miny maxx maxy 0 = none := by
  refine ⟨?_, ?_, ?_⟩
  · intro hr hbox
    have hdeg : r / 111111 < 0 := div_neg_of_neg_of_pos hr (by norm_num)
    have hstep : r / 111111 * (3 / 2) < 0 :=
      mul_neg_of_neg_of_pos hdeg (by norm_num)
    rcases hbox with hx | hy
    · have hxs : arangeQ minx maxx (r / 111111 * (3 / 2)) = some [] :=
        arangeQ_eq_nil _ _ _ hstep.ne
          (le_of_lt (div_neg_of_pos_of_neg (by linarith) hstep))
      obtain ⟨ys, hys⟩ : ∃ ys, arangeQ miny maxy (r / 111111 * (3 / 2)) =
          some ys := by
        rw [arangeQ, if_neg hstep.ne]
        exact ⟨_, rfl⟩
      simp [create_search_grid, hxs, hys, gridLoop]
    · have hys : arangeQ miny maxy (r / 111111 * (3 / 2)) = some [] :=
        arangeQ_eq_nil _ _ _ hstep.ne
          (le_of_lt (div_neg_of_pos_of_neg (by linarith) hstep))
      obtain ⟨xs, hxs⟩ : ∃ xs, arangeQ minx maxx (r / 111111 * (3 / 2)) =
          some xs := by
        rw [arangeQ, if_neg hstep.ne]
        exact ⟨_, rfl⟩
      simp [create_search_grid, hxs, hys, gridLoop_nil_right]
  · intro hr hx
    have hdeg : 0 < r / 111111 := div_pos hr (by norm_num)
    have hstep : 0 < r / 111111 * (3 / 2) := mul_pos hdeg (by norm_num)
    have hxs : arangeQ minx maxx (r / 111111 * (3 / 2)) = some [] :=
      arangeQ_eq_nil _ _ _ hstep.ne'
        (div_nonpos_iff.mpr (Or.inr ⟨by linarith, hstep.le⟩))
    obtain ⟨ys, hys⟩ : ∃ ys, arangeQ miny maxy (r / 111111 * (3 / 2)) =
        some ys := by
      rw [arangeQ, if_neg hstep.ne']
      exact ⟨_, rfl⟩
    simp [create_search_grid, hxs, hys, gridLoop]
  · simp [create_search_grid, arangeQ]

/-- **C4 amended, witness**: concrete instances of the three cases: negative
radius on a real box, positive radius on collapsed bounds, zero radius. -/
theorem degenerate_inputs_grid_witness :
    ((-5 : ℚ) < 0 ∧ ((0:ℚ) < 1 ∨ (0:ℚ) < 1) ∧
      create_search_grid 0 0 1 1 (-5) = some []) ∧
    ((0 : ℚ) < 5 ∧ (1:ℚ) ≤ 2 ∧ create_search_grid 2 0 1 1 5 = some []) ∧
    create_search_grid 0 0 1 1 0 = none :=
  ⟨⟨by norm_num, Or.inl (by norm_num),
     (degenerate_inputs_grid 0 0 1 1 (-5)).1 (by norm_num)
       (Or.inl (by norm_num))⟩,
   ⟨by norm_num, by norm_num,
     (degenerate_inputs_grid 2 0 1 1 5).2.1 (by norm_num) (by norm_num)⟩,
   (degenerate_inputs_grid 0 0 1 1 0).2.2⟩

/-- **C3 counterexample**: box `[0,3) × [0,3)` with `radiusMeters = 111111`,
so `radiusDegrees = 1` and lattice spacing `1.5`.  The interior point
`(0.75, 0.75)` — the centre of the first lattice cell — has squared distance
`9/8 > 1` from every one of the four generated grid points, so the circles
of radius `radiusDegrees` do **not** cover the box: `1.5 ×` spacing exceeds
the `√2 ×` bound needed for circle coverage of a square lattice. -/
theorem grid_cover_gap_counterexample :
    create_search_grid 0 0 3 3 111111 =
      some [(0, 0), (3/2, 0), (0, 3/2), (3/2, 3/2)] ∧
    ((0:ℚ) ≤ 3/4 ∧ (3/4:ℚ) < 3) ∧
    (111111 : ℚ) / 111111 = 1 ∧
    1 < distSq (3/4, 3/4) (0, 0) ∧
    1 < distSq (3/4, 3/4) (3/2, 0) ∧
    1 < distSq (3/4, 3/4) (0, 3/2) ∧
    1 < distSq (3/4, 3/4) (3/2, 3/2) := by
  with_unfolding_all decide

/-- Any `t` in `[start, stop)` lies within one positive step of a lattice
point of `np.arange(start, stop, step)`, on the left. -/
lemma arangeQ_cover (start stop step t : ℚ) (hstep : 0 < step)
    (h1 : start ≤ t) (h2 : t < stop) :
    ∃ k : ℕ, k < (⌈(stop - start) / step⌉).toNat ∧
      start + (k : ℚ) * step ≤ t ∧
      t - (start + (k : ℚ) * step) < step := by
  set u := (t - start) / step with hu
  have hu0 : 0 ≤ u := div_nonneg (by linarith) hstep.le
  have hfl0 : 0 ≤ ⌊u⌋ := Int.floor_nonneg.mpr hu0
  have hustep : u * step = t - start := div_mul_cancel₀ _ hstep.ne'
  have hk : ((⌊u⌋.toNat : ℕ) : ℚ) = ((⌊u⌋ : ℤ) : ℚ) := by
    exact_mod_cast congrArg (Int.cast : ℤ → ℚ) (Int.toNat_of_nonneg hfl0)
  refine ⟨(⌊u⌋).toNat, ?_, ?_, ?_⟩
  · have h3 : u < (stop - start) / step :=
      (div_lt_div_iff_of_pos_right hstep).mpr (by linarith)
    have h4 : (⌊u⌋ : ℚ) < (⌈(stop - start) / step⌉ : ℚ) :=
      lt_of_le_of_lt (Int.floor_le u) (lt_of_lt_of_le h3 (Int.le_ceil _))
    have h5 : ⌊u⌋ < ⌈(stop - start) / step⌉ := by exact_mod_cast h4
    omega
  · have hfle : (⌊u⌋ : ℚ) * step ≤ u * step :=
      mul_le_mul_of_nonneg_right (Int.floor_le u) hstep.le
    rw [hk]
    linarith
  · have hlt1 : u * step < ((⌊u⌋ : ℚ) + 1) * step :=
      mul_lt_mul_of_pos_right (Int.lt_floor_add_one u) hstep
    rw [hk]
    linarith

/-- A pair with coordinates drawn from both axis lists is a generated grid
point. -/
lemma mem_gridLoop {xs ys : List ℚ} {gx gy : ℚ} (hx : gx ∈ xs)
    (hy : gy ∈ ys) : (gy, gx) ∈ gridLoop xs ys := by
  induction xs with
  | nil => cases hx
  | cons x tl ih =>
    show (gy, gx) ∈ ys.map (fun y => (y, x)) ++ gridLoop tl ys
    rcases List.mem_cons.mp hx with h | h
    · subst h
      exact List.mem_append_left _ (List.mem_map.mpr ⟨gy, hy, rfl⟩)
    · exact List.mem_append_right _ (ih h)

/-- **C3 amended**: the claimed radius is wrong but a `1.5 ×` bound holds:
for a positive radius and a point inside the box there is a grid point
within the lattice spacing `1.5 × radiusDegrees` along **each** axis, hence
within squared Euclidean distance `2 · (1.5 × radiusDegrees)²` — i.e. within
`√2 · 1.5 · radiusDegrees ≈ 2.12 · radiusDegrees`, not within
`radiusDegrees` as claimed. -/
theorem grid_cover_bound (minx miny maxx maxy r x y : ℚ)
    (hr : 0 < r) (hx1 : minx ≤ x) (hx2 : x < maxx)
    (hy1 : miny ≤ y) (hy2 : y < maxy) :
    ∃ g, create_search_grid minx miny maxx maxy r = some g ∧
      ∃ p ∈ g, distSq (y, x) p < 2 * (r / 111111 * (3 / 2)) ^ 2 := by
  set step := r / 111111 * (3 / 2) with hstepdef
  have hstep : 0 < step := mul_pos (div_pos hr (by norm_num)) (by norm_num)
  obtain ⟨kx, hkx, hkx1, hkx2⟩ := arangeQ_cover minx maxx step x hstep hx1 hx2
  obtain ⟨ky, hky, hky1, hky2⟩ := arangeQ_cover miny maxy step y hstep hy1 hy2
  have hxs : arangeQ minx maxx step =
      some ((List.range (⌈(maxx - minx) / step⌉).toNat).map
        (fun (k : ℕ) => minx + (k : ℚ) * step)) := by
    rw [arangeQ, if_neg hstep.ne']
  have hys : arangeQ miny maxy step =
      some ((List.range (⌈(maxy - miny) / step⌉).toNat).map
        (fun (k : ℕ) => miny + (k : ℚ) * step)) := by
    rw [arangeQ, if_neg hstep.ne']
  refine ⟨gridLoop
      ((List.range (⌈(maxx - minx) / step⌉).toNat).map
        (fun (k : ℕ) => minx + (k : ℚ) * step))
      ((List.range (⌈(maxy - miny) / step⌉).toNat).map
        (fun (k : ℕ) => miny + (k : ℚ) * step)),
    by simp [create_search_grid, hxs, hys], ?_⟩
  refine ⟨(miny + (ky : ℚ) * step, minx + (kx : ℚ) * step), ?_, ?_⟩
  · exact mem_gridLoop
      (List.mem_map.mpr ⟨kx, List.mem_range.mpr hkx, rfl⟩)
      (List.mem_map.mpr ⟨ky, List.mem_range.mpr hky, rfl⟩)
  · have hxsq : (x - (minx + (kx : ℚ) * step)) ^ 2 < step ^ 2 :=
      sq_lt_sq' (by linarith) hkx2
    have hysq : (y - (miny + (ky : ℚ) * step)) ^ 2 < step ^ 2 :=
      sq_lt_sq' (by linarith) hky2
    have : distSq (y, x) (miny + (ky : ℚ) * step, minx + (kx : ℚ) * step) =
        (y - (miny + (ky : ℚ) * step)) ^ 2 +
        (x - (minx + (kx : ℚ) * step)) ^ 2 := rfl
    rw [this]
    linarith

/-- **C3 amended, witness**: the concrete box `[0,3) × [0,3)` with radius
111111 m and interior point `(0.75, 0.75)`: some grid point lies within
squared distance `2 · 1.5² = 4.5` (here `9/8`). -/
theorem grid_cover_bound_witness :
    (0 : ℚ) < 111111 ∧
    ((0 : ℚ) ≤ 3/4 ∧ (3/4 : ℚ) < 3) ∧
    (∃ g, create_search_grid 0 0 3 3 111111 = some g ∧
      ∃ p ∈ g, distSq (3/4, 3/4) p <
        2 * ((111111 : ℚ) / 111111 * (3 / 2)) ^ 2) :=
  ⟨by norm_num, ⟨by norm_num, by norm_num⟩,
   grid_cover_bound 0 0 3 3 111111 (3/4) (3/4) (by norm_num) (by norm_num)
     (by norm_num) (by norm_num) (by norm_num)⟩

end Riverside
